import Mathlib

/-!
Shallow embedding of the social-light post publishing engine.

Sources embedded here:
- `src/utils/db.mjs` (the SQLite-backed post store): `getPostById`,
  `createPost`, `updatePost`, `markAsPublished`, `logAction`, `deletePost`.
- `src/utils/social/base.mjs` (`SocialAPI.post`, the publish orchestrator).
- `src/commands/clean.mjs` (`isEligibleForPublishing`, the per-post body of
  `publishEligiblePosts`, and the continuous scheduler in `publishPosts`).
- `src/server/index.mjs` (the `/api/posts` create endpoint and the
  eligibility check inside `/api/publish/:id`).

Modelling conventions: timestamps are natural numbers counted in minutes
(1440 minutes per day) and the local timezone is identified with UTC, so the
JavaScript `setHours(0,0,0,0)` truncation becomes rounding down to a
multiple of 1440.  SQLite `CURRENT_TIMESTAMP` is an explicit `now` argument
to each mutating operation.  `result.changes` of an `UPDATE`/`DELETE`
statement is the number of rows matched by its `WHERE` clause, which is the
documented SQLite behaviour (an `UPDATE` counts a row even when the stored
value is unchanged).
-/

namespace SocialLight

/-- A per-platform outcome entry as built by `SocialAPI.post`
(`src/utils/social/base.mjs`): `{success, postId?/error?, ...}`. -/
structure PlatformResult where
  success : Bool
  postId : Option String := none
  error : Option String := none
deriving Repr, DecidableEq

/-- The `results` object of `SocialAPI.post`: a JavaScript object acting as a
map from lowercased platform name to `PlatformResult`, insertion ordered,
assignment overwriting in place. -/
abbrev ResultsMap := List (String × PlatformResult)

/-- JavaScript object property assignment `results[k] = v`: overwrite in
place when the key exists, append otherwise. -/
def setKey : ResultsMap → String → PlatformResult → ResultsMap
  | [], k, v => [(k, v)]
  | e :: m, k, v => if e.1 = k then (k, v) :: m else e :: setKey m k v

/-- JavaScript object property read `results[k]`. -/
def lookupKey (m : ResultsMap) (k : String) : Option PlatformResult :=
  (m.find? (fun e => e.1 = k)).map (fun e => e.2)

/-- Structured payloads passed to `logAction` in the embedded modules, one
constructor per call site shape. -/
inductive LogDetails where
  | postCreated (platform : String) (postId : Option String) (content : Option String)
  | postError (platform : String) (error : String) (content : Option String)
  | postPublished (postId : Nat) (platforms : ResultsMap) (title : Option String)
  | postCreatedWeb (postId : Nat) (source : String)
  | postDeleted (postId : Nat) (wasPublished : Bool) (title : Option String)
deriving Repr, DecidableEq

/-- A row of the `logs` table (`src/utils/db.mjs`). -/
structure LogEntry where
  action : String
  details : LogDetails
  timestamp : Nat
deriving Repr, DecidableEq

/-- A row of the `posts` table (`src/utils/db.mjs`).  `published` is the raw
SQLite INTEGER column (`DEFAULT 0`; `markAsPublished` writes `1`). -/
structure Post where
  id : Nat
  title : Option String
  content : String
  platforms : Option String
  publish_date : Option String
  published : Nat
  created_at : Nat
  updated_at : Nat
deriving Repr, DecidableEq

/-- The SQLite database: the `posts` and `logs` tables plus the
AUTOINCREMENT counter for `posts.id`. -/
structure DB where
  posts : List Post
  logs : List LogEntry
  nextId : Nat
deriving Repr, DecidableEq

/-- Model of `logAction(action, details)` from `src/utils/db.mjs`: append one row to
the `logs` table. -/
def logAction (db : DB) (now : Nat) (action : String) (details : LogDetails) : DB :=
  { db with logs := db.logs ++ [{ action := action, details := details, timestamp := now }] }

/-- Model of `getPostById(id)` from `src/utils/db.mjs`:
`SELECT * FROM posts WHERE id = ?` taking the first matching row. -/
def getPostById (db : DB) (id : Nat) : Option Post :=
  db.posts.find? (fun p => p.id = id)

/-- The argument object of `createPost(post)`. -/
structure NewPost where
  title : Option String
  content : String
  platforms : Option String
  publish_date : Option String
deriving Repr, DecidableEq

/-- Model of `createPost(post)` from `src/utils/db.mjs`: an unconditional
`INSERT INTO posts (title, content, platforms, publish_date)` returning
`lastInsertRowid`.  The function performs no content validation of its own;
the `content TEXT NOT NULL` column constraint admits the empty string. -/
def createPost (db : DB) (now : Nat) (post : NewPost) : Nat × DB :=
  let row : Post :=
    { id := db.nextId, title := post.title, content := post.content,
      platforms := post.platforms, publish_date := post.publish_date,
      published := 0, created_at := now, updated_at := now }
  (db.nextId, { db with posts := db.posts ++ [row], nextId := db.nextId + 1 })

/-- The `updates` object accepted by `updatePost`, restricted to the keys
the function's filter retains: `title`, `content`, `platforms`,
`publish_date`, and `published` (the filter list in `src/utils/db.mjs`
line 192 includes `published`).  An outer `none` means the key is absent. -/
structure UpdateFields where
  title : Option (Option String) := none
  content : Option String := none
  platforms : Option (Option String) := none
  publish_date : Option (Option String) := none
  published : Option Nat := none
deriving Repr, DecidableEq

/-- Model of `fields.length` after the whitelist filter in `updatePost`. -/
def UpdateFields.fieldCount (u : UpdateFields) : Nat :=
  (if u.title.isSome then 1 else 0) + (if u.content.isSome then 1 else 0) +
  (if u.platforms.isSome then 1 else 0) + (if u.publish_date.isSome then 1 else 0) +
  (if u.published.isSome then 1 else 0)

/-- The SET clause of `updatePost` applied to one matching row: write each
present field and refresh `updated_at`. -/
def applyUpdate (u : UpdateFields) (now : Nat) (p : Post) : Post :=
  { p with
    title := u.title.getD p.title,
    content := u.content.getD p.content,
    platforms := u.platforms.getD p.platforms,
    publish_date := u.publish_date.getD p.publish_date,
    published := u.published.getD p.published,
    updated_at := now }

/-- Model of `updatePost(id, updates)` from `src/utils/db.mjs`: return `false`
without touching the database when no whitelisted field is present,
otherwise run `UPDATE posts SET ... , updated_at = CURRENT_TIMESTAMP WHERE
id = ?` and return `result.changes > 0`. -/
def updatePost (db : DB) (now : Nat) (id : Nat) (u : UpdateFields) : Bool × DB :=
  if u.fieldCount = 0 then (false, db)
  else
    let changes := (db.posts.filter (fun p => p.id = id)).length
    (decide (0 < changes),
     { db with posts := db.posts.map (fun p => if p.id = id then applyUpdate u now p else p) })

/-- The `ids` argument of `markAsPublished`: the JavaScript function accepts
a single id or an array and normalises with `Array.isArray`. -/
inductive IdsArg where
  | single (id : Nat)
  | array (ids : List Nat)
deriving Repr, DecidableEq

/-- The `Array.isArray` normalisation at the top of `markAsPublished`. -/
def IdsArg.toList : IdsArg → List Nat
  | .single id => [id]
  | .array ids => ids

/-- One execution of the prepared statement
`UPDATE posts SET published = 1, updated_at = CURRENT_TIMESTAMP WHERE id = ?`:
returns the statement `changes` (rows matched) and the updated table. -/
def markOne (now : Nat) (id : Nat) (db : DB) : Nat × DB :=
  ((db.posts.filter (fun p => p.id = id)).length,
   { db with posts :=
       db.posts.map (fun p => if p.id = id then { p with published := 1, updated_at := now } else p) })

/-- Model of `markAsPublished(ids)` from `src/utils/db.mjs`: run the update statement
for every id inside one transaction, accumulating `totalChanges`. -/
def markAsPublished (db : DB) (now : Nat) (ids : IdsArg) : Nat × DB :=
  ids.toList.foldl
    (fun acc id =>
      let step := markOne now id acc.2
      (acc.1 + step.1, step.2))
    (0, db)

/-- Model of `deletePost(id)` from `src/utils/db.mjs`: look the post up first (for
logging), return `false` when absent; otherwise `DELETE FROM posts WHERE
id = ?`, and when `result.changes > 0` append one `post_deleted` log entry
recording the id, whether the post had been published, and its title. -/
def deletePost (db : DB) (now : Nat) (id : Nat) : Bool × DB :=
  match getPostById db id with
  | none => (false, db)
  | some post =>
      let changes := (db.posts.filter (fun p => p.id = id)).length
      let db1 : DB := { db with posts := db.posts.filter (fun p => ¬ p.id = id) }
      if 0 < changes then
        (true, logAction db1 now "post_deleted"
          (.postDeleted id (decide (post.published = 1)) post.title))
      else (false, db1)

/-! JavaScript string primitives used by the embedded modules, modelled at
the character-list level so that they compute by kernel reduction. -/

/-- Model of `String.prototype.toLowerCase` restricted to ASCII (platform names in
this repository are ASCII identifiers). -/
def lowerChar (c : Char) : Char :=
  if 'A' ≤ c ∧ c ≤ 'Z' then Char.ofNat (c.toNat + 32) else c

/-- Model of `platform.toLowerCase()`. -/
def jsToLower (s : String) : String :=
  String.mk (s.data.map lowerChar)

/-- Whitespace for `String.prototype.trim` (the forms that occur here). -/
def isJsSpace (c : Char) : Bool :=
  c = ' ' ∨ c = '\t' ∨ c = '\n' ∨ c = '\r'

/-- Model of `s.trim()`. -/
def jsTrim (s : String) : String :=
  String.mk (((s.data.dropWhile isJsSpace).reverse.dropWhile isJsSpace).reverse)

/-- Model of `s.split(',')` over characters. -/
def splitCommaAux : List Char → List Char → List (List Char)
  | [], acc => [acc.reverse]
  | c :: cs, acc => if c = ',' then acc.reverse :: splitCommaAux cs [] else splitCommaAux cs (c :: acc)

/-- Model of `post.platforms.split(',').map(p => p.trim())` from
`src/commands/clean.mjs` and `src/server/index.mjs`. -/
def splitPlatforms (s : String) : List String :=
  (splitCommaAux s.data []).map (fun cs => jsTrim (String.mk cs))

/-! The publish orchestrator `SocialAPI.post` (`src/utils/social/base.mjs`).
The per-platform environment `attempt` maps a lowercased platform name to
the outcome of the resolve/authenticate/post sequence of one loop
iteration: `Except.ok ref` when `platformInstance.post` returns a
reference, `Except.error msg` for any thrown error (unknown platform from
the factory, `Platform not initialized`, an authentication failure, or a
delivery failure) — every such throw is caught by the iteration's catch
block. -/

/-- The payload fields of `SocialAPI.post` that reach results and logs. -/
structure PostPayload where
  text : Option String := none
  title : Option String := none
deriving Repr, DecidableEq

/-- The result entry the loop stores for one platform: success with
`postId` on `Except.ok`, failure with `error` on a caught throw. -/
def resultOf : Except String String → PlatformResult
  | .ok ref => { success := true, postId := some ref }
  | .error msg => { success := false, error := some msg }

/-- The loop accumulator of `SocialAPI.post`: the `results` object, the
`errors` array (original-case platform name and message), and the database
receiving the `logAction` calls. -/
structure PostLoopState where
  results : ResultsMap
  errors : List (String × String)
  db : DB
deriving Repr, DecidableEq

/-- Model of `content: post.text?.substring(0, 100)` in the orchestrator's
logs, the character prefix taken at the list level. -/
def logContent (payload : PostPayload) : Option String :=
  payload.text.map (fun s => String.mk (s.data.take 100))

/-- One iteration of the `for (const platform of post.platforms)` loop in
`SocialAPI.post`. -/
def postStep (attempt : String → Except String String) (now : Nat) (payload : PostPayload)
    (st : PostLoopState) (platform : String) : PostLoopState :=
  let platformLower := jsToLower platform
  match attempt platformLower with
  | .ok ref =>
      { results := setKey st.results platformLower (resultOf (.ok ref)),
        errors := st.errors,
        db := logAction st.db now "post_created"
          (.postCreated platformLower (some ref) (logContent payload)) }
  | .error msg =>
      { results := setKey st.results platformLower (resultOf (.error msg)),
        errors := st.errors ++ [(platform, msg)],
        db := logAction st.db now "post_error"
          (.postError platformLower msg (logContent payload)) }

/-- The aggregate returned by `SocialAPI.post`: the per-platform map, the
derived flag `success: errors.length === 0`, and the `errors` array. -/
structure PostOutcome where
  results : ResultsMap
  success : Bool
  errors : List (String × String)
deriving Repr, DecidableEq

/-- Model of `SocialAPI.post(post)` from `src/utils/social/base.mjs`: throw when the
platform list is empty, otherwise attempt every platform in order (each
failure caught and recorded) and return the aggregate together with the
database to which the per-platform `logAction` calls were appended. -/
def socialPost (attempt : String → Except String String) (db : DB) (now : Nat)
    (payload : PostPayload) (platforms : List String) : Except String (PostOutcome × DB) :=
  if platforms.isEmpty then .error "No platforms specified for posting"
  else
    let final := platforms.foldl (postStep attempt now payload) ⟨[], [], db⟩
    .ok ({ results := final.results, success := final.errors.isEmpty, errors := final.errors },
         final.db)

/-- The body of the `for (const post of eligiblePosts)` loop of
`publishEligiblePosts` (`src/commands/clean.mjs`) for one post: skip the
post when its `platforms` column is null or blank; otherwise split the
platform list, call `socialPost`, and when at least one platform result
succeeded run `markAsPublished(post.id)` and append a `post_published` log
entry.  The returned flag records whether the id was pushed onto
`publishedPostIds`.  A throw from `socialPost` is caught by the loop's
catch block (console output only). -/
def publishOnePost (attempt : String → Except String String) (now : Nat)
    (db : DB) (post : Post) : DB × Bool :=
  match post.platforms with
  | none => (db, false)
  | some s =>
      if jsTrim s = "" then (db, false)
      else
        match socialPost attempt db now { text := some post.content, title := post.title }
            (splitPlatforms s) with
        | .error _ => (db, false)
        | .ok (outcome, db1) =>
            if outcome.results.any (fun e => e.2.success) then
              let db2 := (markAsPublished db1 now (.single post.id)).2
              (logAction db2 now "post_published"
                (.postPublished post.id outcome.results post.title), true)
            else (db1, false)

/-! Eligibility.  A schedule value as parsed from the `publish_date` column:
either a bare calendar date or a date with a time-of-day component (the
server detects the latter by the string containing `T` or a space). -/

/-- A parsed `publish_date`: a calendar day index, or an exact instant in
minutes. -/
inductive SchedValue where
  | dateOnly (day : Nat)
  | dateTime (t : Nat)
deriving Repr, DecidableEq

/-- The instant `new Date(post.publish_date)` denotes: a date-only string
parses to the start of its day. -/
def SchedValue.instant : SchedValue → Nat
  | .dateOnly d => d * 1440
  | .dateTime t => t

/-- Model of `setHours(0, 0, 0, 0)`: truncate an instant to the start of its day. -/
def startOfDay (t : Nat) : Nat := t / 1440 * 1440

/-- Model of `isEligibleForPublishing(post)` from `src/commands/clean.mjs`: no
schedule means eligible immediately; otherwise both the schedule and the
current time are truncated to day level (`setHours(0,0,0,0)` on each) and
compared — the time-of-day component of a date-time schedule is discarded
here. -/
def isEligibleForPublishing (pd : Option SchedValue) (now : Nat) : Bool :=
  match pd with
  | none => true
  | some v => decide (startOfDay v.instant ≤ startOfDay now)

/-- The eligibility check inside `app.post /api/publish/:id`
(`src/server/index.mjs`): a date-time schedule is compared as an exact
instant; a date-only schedule is truncated to its start of day; the request
is rejected when the resulting instant is still in the future. -/
def serverEligibleCheck (pd : Option SchedValue) (now : Nat) : Bool :=
  match pd with
  | none => true
  | some (.dateTime t) => decide (¬ now < t)
  | some (.dateOnly d) => decide (¬ now < startOfDay (SchedValue.instant (.dateOnly d)))

/-! The continuous scheduler (`publishPosts` with `--continuous`,
`src/commands/clean.mjs`).  The cron callback
`cron.schedule(pattern, async () => { await runContinuousPublish(); })`
consults no state before starting a cycle: there is no guard variable in
the source, so every tick starts a publishing cycle even while an earlier
cycle is still awaiting its platform calls.  The state tracks the number of
cycles currently in flight. -/

/-- Scheduler state: how many publishing cycles are currently running. -/
structure SchedulerState where
  running : Nat
deriving Repr, DecidableEq

/-- A timer tick: the cron callback starts `runContinuousPublish`
unconditionally. -/
def onTick (s : SchedulerState) : SchedulerState :=
  { running := s.running + 1 }

/-- Completion of one publishing cycle. -/
def onCycleComplete (s : SchedulerState) : SchedulerState :=
  { running := s.running - 1 }

/-- Model of `n` consecutive ticks from the idle state with no intervening
completion (a cycle outlasting the tick interval). -/
def ticksFromIdle : Nat → SchedulerState
  | 0 => { running := 0 }
  | n + 1 => onTick (ticksFromIdle n)

/-! The `/api/posts` create endpoint (`src/server/index.mjs`): reject a
missing or empty `content` with a 400 before the store is touched,
otherwise combine `publish_date`/`publish_time`, insert through
`createPost`, and log `post_created`. -/

/-- JavaScript truthiness of an optional string (absent, null and the empty
string are falsy). -/
def jsTruthy : Option String → Bool
  | none => false
  | some s => decide (s ≠ "")

/-- Model of `app.post /api/posts` from `src/server/index.mjs`. -/
def apiCreatePost (db : DB) (now : Nat) (title : Option String) (content : Option String)
    (platforms : Option String) (publish_date : Option String) (publish_time : Option String) :
    Except String (Nat × DB) :=
  if ¬ jsTruthy content then .error "Content is required"
  else
    let dateTimeValue :=
      if jsTruthy publish_date ∧ jsTruthy publish_time then
        some (publish_date.getD "" ++ " " ++ publish_time.getD "")
      else publish_date
    let created := createPost db now
      { title := title, content := content.getD "", platforms := platforms,
        publish_date := dateTimeValue }
    .ok (created.1, logAction created.2 now "post_created" (.postCreatedWeb created.1 "web"))

/-! Helper lemmas about the store. -/

/-- A map that preserves the `id` field preserves the number of rows an
id-keyed `WHERE` clause matches. -/
lemma filter_id_length_map (posts : List Post) (f : Post → Post)
    (hf : ∀ p, (f p).id = p.id) (i : Nat) :
    ((posts.map f).filter (fun p => p.id = i)).length
      = (posts.filter (fun p => p.id = i)).length := by
  induction posts with
  | nil => rfl
  | cons p ps ih =>
      by_cases h : p.id = i
      · simp [List.filter_cons, hf, h, ih]
      · simp [List.filter_cons, hf, h, ih]

/-- A map that preserves the `id` field commutes with an id-keyed
`SELECT ... WHERE id = ?`. -/
lemma find?_id_map (posts : List Post) (f : Post → Post)
    (hf : ∀ p, (f p).id = p.id) (i : Nat) :
    (posts.map f).find? (fun p => p.id = i) = (posts.find? (fun p => p.id = i)).map f := by
  induction posts with
  | nil => rfl
  | cons p ps ih =>
      by_cases h : p.id = i
      · simp [List.find?_cons, hf, h]
      · simp [List.find?_cons, hf, h, ih]

/-- A successful id lookup implies the row count of the matching filter is
positive. -/
lemma filter_id_length_pos (db : DB) (id : Nat) (post : Post)
    (h : getPostById db id = some post) :
    0 < (db.posts.filter (fun p => p.id = id)).length := by
  have hmem : post ∈ db.posts := List.mem_of_find?_eq_some h
  have hid : post.id = id := by
    have := List.find?_some h
    exact of_decide_eq_true this
  have : post ∈ db.posts.filter (fun p => p.id = id) :=
    List.mem_filter.2 ⟨hmem, by simp [hid]⟩
  exact List.length_pos.2 (List.ne_nil_of_mem this)

/-! Concrete fixtures used by witnesses and counterexamples. -/

/-- An empty database whose next AUTOINCREMENT id is 1. -/
def emptyDb : DB := { posts := [], logs := [], nextId := 1 }

/-- An already-published post with id 1. -/
def pubPost : Post :=
  { id := 1, title := some "t", content := "c", platforms := none,
    publish_date := none, published := 1, created_at := 0, updated_at := 0 }

/-- A database holding only `pubPost`. -/
def dbPublished : DB := { posts := [pubPost], logs := [], nextId := 2 }

/-- An unpublished post with id 1 and no platforms. -/
def unpubPost : Post :=
  { id := 1, title := none, content := "c", platforms := none,
    publish_date := none, published := 0, created_at := 0, updated_at := 0 }

/-- A database holding only `unpubPost`. -/
def dbUnpublished : DB := { posts := [unpubPost], logs := [], nextId := 2 }

/-- Claim C4 counterexample: `markAsPublished` on a post whose `published`
field is already 1 returns 1 (the SQLite matched-row count), not the claimed
false/0 — while `updated_at` is indeed refreshed. -/
theorem markAsPublished_already_published_counterexample :
    (markAsPublished dbPublished 9 (.single 1)).1 = 1 ∧
      ¬ (markAsPublished dbPublished 9 (.single 1)).1 = 0 ∧
      ((markAsPublished dbPublished 9 (.single 1)).2.posts.map (fun p => p.updated_at)) = [9] := by
  decide

/-- Claim C4 (amended): `markAsPublished` on a single id returns the number
of rows the id matches — 1 for any existing post, already published or not,
and 0 only when no post has that id (in which case the database is
unchanged); every matched row gets `published = 1` and a refreshed
`updated_at`. -/
theorem markAsPublished_returns_matched_count (db : DB) (now id : Nat) :
    (markAsPublished db now (.single id)).1 = (db.posts.filter (fun p => p.id = id)).length ∧
    (markAsPublished db now (.single id)).2.posts =
      db.posts.map (fun p => if p.id = id then { p with published := 1, updated_at := now } else p) ∧
    ((∀ p ∈ db.posts, ¬ p.id = id) → markAsPublished db now (.single id) = (0, db)) ∧
    (∀ post ∈ db.posts, post.id = id →
      0 < (markAsPublished db now (.single id)).1 ∧
      { post with published := 1, updated_at := now } ∈ (markAsPublished db now (.single id)).2.posts) := by
  refine ⟨by simp [markAsPublished, IdsArg.toList, markOne], by simp [markAsPublished, IdsArg.toList, markOne], ?_, ?_⟩
  · intro h
    have hfil : db.posts.filter (fun p => p.id = id) = [] := by
      simp only [List.filter_eq_nil_iff]
      intro p hp
      simpa using h p hp
    have hmap : db.posts.map
        (fun p => if p.id = id then { p with published := 1, updated_at := now } else p) = db.posts := by
      have hcong : db.posts.map
            (fun p => if p.id = id then { p with published := 1, updated_at := now } else p)
          = db.posts.map (fun p => p) :=
        List.map_congr_left (fun p hp => by simp [h p hp])
      simpa using hcong
    simp [markAsPublished, IdsArg.toList, markOne, hfil, hmap]
  · intro post hmem hid
    constructor
    · have : post ∈ db.posts.filter (fun p => p.id = id) :=
        List.mem_filter.2 ⟨hmem, by simp [hid]⟩
      have hpos : 0 < (db.posts.filter (fun p => p.id = id)).length :=
        List.length_pos.2 (List.ne_nil_of_mem this)
      simpa [markAsPublished, IdsArg.toList, markOne] using hpos
    · have : (if post.id = id then { post with published := 1, updated_at := now } else post) ∈
          db.posts.map (fun p => if p.id = id then { p with published := 1, updated_at := now } else p) :=
        List.mem_map_of_mem _ hmem
      rw [if_pos hid] at this
      simpa [markAsPublished, IdsArg.toList, markOne] using this

/-- Witness for the amended C4 theorem at concrete inputs. -/
theorem markAsPublished_returns_matched_count_witness :
    markAsPublished emptyDb 9 (.single 1) = (0, emptyDb) ∧
      0 < (markAsPublished dbPublished 9 (.single 1)).1 :=
  ⟨(markAsPublished_returns_matched_count emptyDb 9 1).2.2.1 (by decide),
   ((markAsPublished_returns_matched_count dbPublished 9 1).2.2.2 pubPost (by decide) (by decide)).1⟩

/-- Claim C5 counterexample: an update whose field set is exactly
`{published}` succeeds (`updatePost` returns true) and mutates the row —
there is no `InvariantViolation`, because the whitelist in the source
includes `published`. -/
theorem updatePost_published_is_writable :
    (updatePost dbUnpublished 5 1 { published := some 1 }).1 = true ∧
      ((updatePost dbUnpublished 5 1 { published := some 1 }).2.posts.map (fun p => p.published)) = [1] := by
  decide

/-- Claim C5 (amended): the mutable-field whitelist of `updatePost` is
`title`, `content`, `platforms`, `publish_date` and also `published`:
an update carrying `published` succeeds on an existing post and writes it
(no `InvariantViolation` exists); an update carrying no whitelisted field
returns false and mutates nothing. -/
theorem updatePost_whitelist_behavior (db : DB) (now id : Nat) (u : UpdateFields) :
    (u.fieldCount = 0 → updatePost db now id u = (false, db)) ∧
    (∀ v, u.published = some v → ∀ post, getPostById db id = some post →
      (updatePost db now id u).1 = true ∧
      getPostById (updatePost db now id u).2 id = some (applyUpdate u now post) ∧
      (applyUpdate u now post).published = v ∧ (applyUpdate u now post).updated_at = now) := by
  constructor
  · intro h
    simp [updatePost, h]
  · intro v hv post hpost
    have hcount : ¬ u.fieldCount = 0 := by
      simp [UpdateFields.fieldCount, hv]
    have hpos := filter_id_length_pos db id post hpost
    have hpost2 : db.posts.find? (fun p => p.id = id) = some post := hpost
    have hid : post.id = id := by
      have hp := List.find?_some hpost2
      simpa using hp
    refine ⟨?_, ?_, by simp [applyUpdate, hv], by simp [applyUpdate]⟩
    · simp [updatePost, hcount, hpos]
    · have hf : ∀ p : Post, ((if p.id = id then applyUpdate u now p else p) : Post).id = p.id := by
        intro p
        by_cases h : p.id = id
        · simp [h, applyUpdate]
        · simp [h]
      simp only [updatePost, hcount, if_false, getPostById]
      rw [find?_id_map db.posts _ hf id, hpost2]
      simp [hid]

/-- Witness for the amended C5 theorem at concrete inputs. -/
theorem updatePost_whitelist_behavior_witness :
    updatePost dbUnpublished 5 1 {} = (false, dbUnpublished) ∧
      (updatePost dbUnpublished 5 1 { published := some 1 }).1 = true :=
  ⟨(updatePost_whitelist_behavior dbUnpublished 5 1 {}).1 (by decide),
   ((updatePost_whitelist_behavior dbUnpublished 5 1 { published := some 1 }).2 1 (by decide)
      unpubPost (by decide)).1⟩

/-- Claim C8 counterexample: the store's `createPost` inserts a row and
returns its id even when `content` is the empty string — there is no
`ValidationError` at the store layer (the SQLite NOT NULL constraint admits
the empty string). -/
theorem createPost_empty_content_inserts :
    createPost emptyDb 3 { title := none, content := "", platforms := none, publish_date := none } =
      (1, { posts := [{ id := 1, title := none, content := "", platforms := none,
                        publish_date := none, published := 0, created_at := 3, updated_at := 3 }],
            logs := [], nextId := 2 }) := by
  decide

/-- Claim C8 (amended): the store's `createPost` inserts unconditionally,
assigning `nextId`; the rejection of empty content happens one layer up, in
the `/api/posts` endpoint, which answers `Content is required` (HTTP 400)
for an absent or empty `content` before the store is touched, and for
non-empty content inserts through `createPost` and returns the new id. -/
theorem create_content_validated_at_endpoint (db : DB) (now : Nat) (post : NewPost)
    (title platforms publish_date publish_time : Option String) :
    createPost db now post =
      (db.nextId,
       { db with
         posts := db.posts ++
           [{ id := db.nextId, title := post.title, content := post.content,
              platforms := post.platforms, publish_date := post.publish_date,
              published := 0, created_at := now, updated_at := now }],
         nextId := db.nextId + 1 }) ∧
    apiCreatePost db now title none platforms publish_date publish_time =
      .error "Content is required" ∧
    apiCreatePost db now title (some "") platforms publish_date publish_time =
      .error "Content is required" ∧
    (∀ c : String, ¬ c = "" →
      apiCreatePost db now title (some c) platforms publish_date publish_time =
        .ok (db.nextId,
          logAction (createPost db now
            { title := title, content := c, platforms := platforms,
              publish_date :=
                if jsTruthy publish_date ∧ jsTruthy publish_time then
                  some (publish_date.getD "" ++ " " ++ publish_time.getD "")
                else publish_date }).2
            now "post_created" (.postCreatedWeb db.nextId "web"))) := by
  refine ⟨rfl, by simp [apiCreatePost, jsTruthy], by simp [apiCreatePost, jsTruthy], ?_⟩
  intro c hc
  simp [apiCreatePost, jsTruthy, hc, createPost]

/-- Witness for the amended C8 theorem at concrete inputs. -/
theorem create_content_validated_at_endpoint_witness :
    apiCreatePost emptyDb 3 none (some "hello") none none none =
      .ok (emptyDb.nextId,
        logAction (createPost emptyDb 3
          { title := none, content := "hello", platforms := none,
            publish_date :=
              if jsTruthy none ∧ jsTruthy none then
                some ((none : Option String).getD "" ++ " " ++ (none : Option String).getD "")
              else none }).2
          3 "post_created" (.postCreatedWeb emptyDb.nextId "web")) :=
  (create_content_validated_at_endpoint emptyDb 3
    { title := none, content := "x", platforms := none, publish_date := none }
    none none none none).2.2.2 "hello" (by decide)

/-- Auxiliary: the running total of the `markAsPublished` transaction over a
list of ids is the sum of the per-id matched-row counts, the per-id counts
being unaffected by the earlier updates of the same transaction. -/
lemma markAsPublished_foldl_total (now : Nat) (ids : List Nat) :
    ∀ (db : DB) (acc : Nat),
      (ids.foldl
        (fun a id =>
          let step := markOne now id a.2
          (a.1 + step.1, step.2)) (acc, db)).1
        = acc + (ids.map (fun i => (db.posts.filter (fun p => p.id = i)).length)).sum := by
  induction ids with
  | nil => intro db acc; simp
  | cons i is ih =>
      intro db acc
      have hf : ∀ p : Post,
          ((if p.id = i then { p with published := 1, updated_at := now } else p) : Post).id = p.id := by
        intro p
        by_cases h : p.id = i
        · simp [h]
        · simp [h]
      have hcounts : ∀ j : Nat,
          (((markOne now i db).2.posts).filter (fun p => p.id = j)).length
            = (db.posts.filter (fun p => p.id = j)).length := by
        intro j
        simpa [markOne] using filter_id_length_map db.posts _ hf j
      simp only [List.foldl_cons, ih]
      have hsum : (is.map (fun j => (((markOne now i db).2.posts).filter (fun p => p.id = j)).length)).sum
          = (is.map (fun j => (db.posts.filter (fun p => p.id = j)).length)).sum := by
        have : (is.map (fun j => (((markOne now i db).2.posts).filter (fun p => p.id = j)).length))
            = is.map (fun j => (db.posts.filter (fun p => p.id = j)).length) :=
          List.map_congr_left (fun j _ => hcounts j)
        rw [this]
      rw [hsum]
      simp [markOne]
      omega

/-- Claim C9: `markAsPublished` accepts a single id or an array (the single
form behaves as the one-element array), runs the per-id updates of the
transaction accumulating `totalChanges`, and returns the sum of the per-id
matched-row counts, an id matching no stored post contributing zero. -/
theorem markAsPublished_accepts_single_or_array (db : DB) (now id : Nat) (ids : List Nat) :
    markAsPublished db now (.single id) = markAsPublished db now (.array [id]) ∧
    (markAsPublished db now (.array ids)).1 =
      (ids.map (fun i => (db.posts.filter (fun p => p.id = i)).length)).sum ∧
    (∀ i, (∀ p ∈ db.posts, ¬ p.id = i) →
      (db.posts.filter (fun p => p.id = i)).length = 0) := by
  refine ⟨rfl, ?_, ?_⟩
  · simpa [markAsPublished, IdsArg.toList] using markAsPublished_foldl_total now ids db 0
  · intro i h
    have : db.posts.filter (fun p => p.id = i) = [] := by
      simp only [List.filter_eq_nil_iff]
      intro p hp
      simpa using h p hp
    simp [this]

/-- Witness for the C9 theorem at concrete inputs. -/
theorem markAsPublished_accepts_single_or_array_witness :
    markAsPublished dbPublished 9 (.single 1) = markAsPublished dbPublished 9 (.array [1]) ∧
      (dbPublished.posts.filter (fun p => p.id = 5)).length = 0 :=
  ⟨(markAsPublished_accepts_single_or_array dbPublished 9 1 [1]).1,
   (markAsPublished_accepts_single_or_array dbPublished 9 1 [1]).2.2 5 (by decide)⟩

/-- Claim C10: `deletePost` on an id with no matching post returns false and
leaves the database untouched (no row change, no log entry); on an existing
post it deletes the row, returns true, and appends exactly one
`post_deleted` log entry recording the id, whether the post had been
published, and its title. -/
theorem deletePost_found_and_missing (db : DB) (now id : Nat) :
    (getPostById db id = none → deletePost db now id = (false, db)) ∧
    (∀ post, getPostById db id = some post →
      (deletePost db now id).1 = true ∧
      (deletePost db now id).2.posts = db.posts.filter (fun p => ¬ p.id = id) ∧
      (deletePost db now id).2.logs = db.logs ++
        [{ action := "post_deleted",
           details := .postDeleted id (decide (post.published = 1)) post.title,
           timestamp := now }]) := by
  constructor
  · intro h
    simp [deletePost, h]
  · intro post hpost
    have hpos := filter_id_length_pos db id post hpost
    simp [deletePost, hpost, hpos, logAction]

/-- Witness for the C10 theorem at concrete inputs. -/
theorem deletePost_found_and_missing_witness :
    deletePost dbUnpublished 4 2 = (false, dbUnpublished) ∧
      (deletePost dbUnpublished 4 1).1 = true :=
  ⟨(deletePost_found_and_missing dbUnpublished 4 2).1 (by decide),
   ((deletePost_found_and_missing dbUnpublished 4 1).2 unpubPost (by decide)).1⟩

/-! Helper lemmas about the orchestrator loop. -/

/-- Object lookup skips an entry with a different key. -/
lemma lookupKey_cons_ne (e : String × PlatformResult) (m : ResultsMap) (q : String)
    (h : ¬ e.1 = q) : lookupKey (e :: m) q = lookupKey m q := by
  simp [lookupKey, List.find?_cons, h]

/-- Object lookup hits an entry with the queried key. -/
lemma lookupKey_cons_eq (e : String × PlatformResult) (m : ResultsMap) (q : String)
    (h : e.1 = q) : lookupKey (e :: m) q = some e.2 := by
  simp [lookupKey, List.find?_cons, h]

/-- Reading a key back after a JavaScript object assignment. -/
lemma lookupKey_setKey (m : ResultsMap) (k q : String) (v : PlatformResult) :
    lookupKey (setKey m k v) q = if q = k then some v else lookupKey m q := by
  induction m with
  | nil =>
      by_cases h : q = k
      · subst h
        rw [if_pos rfl]
        exact lookupKey_cons_eq (q, v) [] q rfl
      · rw [if_neg h]
        rw [show setKey [] k v = [(k, v)] from rfl]
        rw [lookupKey_cons_ne (k, v) [] q (fun hh => h hh.symm)]
  | cons e m ih =>
      by_cases he : e.1 = k
      · rw [show setKey (e :: m) k v = (k, v) :: m from by simp [setKey, he]]
        by_cases h : q = k
        · subst h
          rw [if_pos rfl]
          exact lookupKey_cons_eq (q, v) m q rfl
        · rw [if_neg h]
          rw [lookupKey_cons_ne (k, v) m q (fun hh => h hh.symm)]
          rw [lookupKey_cons_ne e m q (by rw [he]; exact fun hh => h hh.symm)]
      · rw [show setKey (e :: m) k v = e :: setKey m k v from by simp [setKey, he]]
        by_cases hq : e.1 = q
        · have h : ¬ q = k := fun hh => he (by rw [hq, hh])
          rw [if_neg h]
          rw [lookupKey_cons_eq e (setKey m k v) q hq, lookupKey_cons_eq e m q hq]
        · rw [lookupKey_cons_ne e (setKey m k v) q hq, lookupKey_cons_ne e m q hq]
          exact ih

/-- The `results` object written by one loop iteration of `SocialAPI.post`. -/
lemma postStep_results (attempt : String → Except String String) (now : Nat)
    (payload : PostPayload) (st : PostLoopState) (platform : String) :
    (postStep attempt now payload st platform).results
      = setKey st.results (jsToLower platform) (resultOf (attempt (jsToLower platform))) := by
  cases h : attempt (jsToLower platform) <;> simp [postStep, h, resultOf]

/-- The `errors` entries the loop pushes for a list of platforms. -/
def errorsOf (attempt : String → Except String String) : List String → List (String × String)
  | [] => []
  | p :: ps =>
      (match attempt (jsToLower p) with
        | .ok _ => []
        | .error m => [(p, m)]) ++ errorsOf attempt ps

/-- The `errors` array after one loop iteration. -/
lemma postStep_errors (attempt : String → Except String String) (now : Nat)
    (payload : PostPayload) (st : PostLoopState) (platform : String) :
    (postStep attempt now payload st platform).errors
      = st.errors ++ (match attempt (jsToLower platform) with
          | .ok _ => []
          | .error m => [(platform, m)]) := by
  cases h : attempt (jsToLower platform) <;> simp [postStep, h]

/-- One loop iteration only appends log rows: the `posts` table is
untouched. -/
lemma postStep_posts (attempt : String → Except String String) (now : Nat)
    (payload : PostPayload) (st : PostLoopState) (platform : String) :
    (postStep attempt now payload st platform).db.posts = st.db.posts := by
  cases h : attempt (jsToLower platform) <;> simp [postStep, h, logAction]

/-- After the whole loop, the result map holds, for every platform of the
list, exactly the entry determined by that platform's attempt outcome. -/
lemma foldl_postStep_lookup (attempt : String → Except String String) (now : Nat)
    (payload : PostPayload) (platforms : List String) :
    ∀ (st : PostLoopState) (k : String),
      lookupKey (platforms.foldl (postStep attempt now payload) st).results k
        = if ∃ p ∈ platforms, jsToLower p = k then some (resultOf (attempt k))
          else lookupKey st.results k := by
  induction platforms with
  | nil => intro st k; simp
  | cons p ps ih =>
      intro st k
      simp only [List.foldl_cons, ih]
      by_cases hk : jsToLower p = k
      · by_cases hex : ∃ q ∈ ps, jsToLower q = k
        · simp [hex, hk]
        · simp only [postStep_results, lookupKey_setKey, hex, if_false]
          rw [hk]
          simp [hk]
      · by_cases hex : ∃ q ∈ ps, jsToLower q = k
        · simp [hex, hk]
        · have hne : ¬ k = jsToLower p := fun hh => hk hh.symm
          simp [hex, hk, postStep_results, lookupKey_setKey, hne]

/-- After the whole loop, the `errors` array is the `errorsOf` list. -/
lemma foldl_postStep_errors (attempt : String → Except String String) (now : Nat)
    (payload : PostPayload) (platforms : List String) :
    ∀ st : PostLoopState,
      (platforms.foldl (postStep attempt now payload) st).errors
        = st.errors ++ errorsOf attempt platforms := by
  induction platforms with
  | nil => intro st; simp [errorsOf]
  | cons p ps ih =>
      intro st
      simp only [List.foldl_cons, ih, postStep_errors, errorsOf, List.append_assoc]

/-- The whole loop leaves the `posts` table untouched. -/
lemma foldl_postStep_posts (attempt : String → Except String String) (now : Nat)
    (payload : PostPayload) (platforms : List String) :
    ∀ st : PostLoopState,
      (platforms.foldl (postStep attempt now payload) st).db.posts = st.db.posts := by
  induction platforms with
  | nil => intro st; rfl
  | cons p ps ih =>
      intro st
      simp only [List.foldl_cons, ih, postStep_posts]

/-- Inversion of a successful `socialPost` call: the loop ran over a
non-empty list and the outcome's components are the loop's. -/
lemma socialPost_ok_inv (attempt : String → Except String String) (db : DB) (now : Nat)
    (payload : PostPayload) (platforms : List String) (out : PostOutcome) (db2 : DB)
    (h : socialPost attempt db now payload platforms = .ok (out, db2)) :
    out.results = (platforms.foldl (postStep attempt now payload) ⟨[], [], db⟩).results ∧
    out.success = (errorsOf attempt platforms).isEmpty ∧
    db2.posts = db.posts := by
  by_cases he : platforms.isEmpty = true
  · simp [socialPost, he] at h
  · simp only [socialPost] at h
    rw [if_neg he] at h
    injection h with h1
    have h2 := congrArg Prod.fst h1
    have h3 := congrArg Prod.snd h1
    simp only at h2 h3
    subst h2
    refine ⟨rfl, ?_, ?_⟩
    · have := foldl_postStep_errors attempt now payload platforms ⟨[], [], db⟩
      simp only [this]
      simp
    · rw [← h3]
      exact foldl_postStep_posts attempt now payload platforms ⟨[], [], db⟩

/-- The flag `errors.length === 0` holds exactly when every platform's
attempt succeeded. -/
lemma errorsOf_eq_nil_iff (attempt : String → Except String String) (platforms : List String) :
    errorsOf attempt platforms = [] ↔ ∀ p ∈ platforms, (attempt (jsToLower p)).isOk = true := by
  induction platforms with
  | nil => simp [errorsOf]
  | cons p ps ih =>
      cases h : attempt (jsToLower p) <;>
        simp [errorsOf, h, ih, Except.isOk, Except.toBool]

/-- Claim C1: partial-failure isolation of `SocialAPI.post`.  For any
per-platform behaviour and any post with two or more target platforms, the
call returns normally (it never raises because of a per-platform failure —
an unknown platform, an authentication failure or a delivery failure all
surface as a caught error), and every platform of the list is attempted and
receives its own entry in the result map: the success entry of its attempt
when it succeeded, a failure entry carrying its error message when it
failed. -/
theorem socialPost_partial_failure_isolation (attempt : String → Except String String)
    (db : DB) (now : Nat) (payload : PostPayload) (platforms : List String)
    (h2 : 2 ≤ platforms.length) :
    ∃ out db2, socialPost attempt db now payload platforms = .ok (out, db2) ∧
      ∀ p ∈ platforms,
        lookupKey out.results (jsToLower p) = some (resultOf (attempt (jsToLower p))) := by
  have hne : ¬ platforms.isEmpty = true := by
    cases platforms with
    | nil => simp at h2
    | cons a l => simp
  have heq : socialPost attempt db now payload platforms =
      .ok ({ results := (platforms.foldl (postStep attempt now payload) ⟨[], [], db⟩).results,
             success := (platforms.foldl (postStep attempt now payload) ⟨[], [], db⟩).errors.isEmpty,
             errors := (platforms.foldl (postStep attempt now payload) ⟨[], [], db⟩).errors },
           (platforms.foldl (postStep attempt now payload) ⟨[], [], db⟩).db) := by
    simp only [socialPost]
    rw [if_neg hne]
  refine ⟨_, _, heq, ?_⟩
  intro p hp
  simp only
  rw [foldl_postStep_lookup attempt now payload platforms ⟨[], [], db⟩ (jsToLower p)]
  rw [if_pos ⟨p, hp, rfl⟩]

/-- Fixture: an environment where platform `a` succeeds with reference
`ref1` and every other platform fails as the factory does for an
unregistered name. -/
def wAtt : String → Except String String :=
  fun p => if p = "a" then .ok "ref1" else .error "Unsupported platform: b"

/-- Witness for the C1 theorem at a concrete two-platform input. -/
theorem socialPost_partial_failure_isolation_witness :
    2 ≤ (["a", "b"] : List String).length ∧
      ∃ out db2, socialPost wAtt emptyDb 0 { text := some "hello" } ["a", "b"] = .ok (out, db2) ∧
        ∀ p ∈ (["a", "b"] : List String),
          lookupKey out.results (jsToLower p) = some (resultOf (wAtt (jsToLower p))) :=
  ⟨by decide,
   socialPost_partial_failure_isolation wAtt emptyDb 0 { text := some "hello" } ["a", "b"]
     (by decide)⟩

/-- Claim C2 counterexample: with platform `a` succeeding and platform `b`
failing, the returned overall `success` flag is `false` although at least
one platform in the result map succeeded — the flag is all-success
(`errors.length === 0`), not the claimed any-success. -/
theorem overall_success_flag_counterexample :
    (socialPost wAtt emptyDb 0 { text := some "hello" } ["a", "b"]).toOption.map
      (fun x => (x.1.success, x.1.results.any (fun e => e.2.success))) = some (false, true) := by
  decide

/-- Claim C2 (amended): the `success` flag `SocialAPI.post` returns equals
"every platform succeeded" (no `errors` entry), not any-success; the
any-success criterion lives in the caller: `publishEligiblePosts`
recomputes "some result entry succeeded" from the result map, calls
`markAsPublished` exactly when it holds, and leaves the posts table
unchanged when no platform succeeded, so a later attempt is permitted. -/
theorem overall_success_flag_and_caller_marking (attempt : String → Except String String)
    (db : DB) (now : Nat) :
    (∀ payload platforms out db2,
      socialPost attempt db now payload platforms = .ok (out, db2) →
        ((out.success = true ↔ ∀ p ∈ platforms, (attempt (jsToLower p)).isOk = true) ∧
         db2.posts = db.posts)) ∧
    (∀ post s out db2, post.platforms = some s → ¬ jsTrim s = "" →
      socialPost attempt db now { text := some post.content, title := post.title }
          (splitPlatforms s) = .ok (out, db2) →
        ((publishOnePost attempt now db post).2 = out.results.any (fun e => e.2.success) ∧
         (out.results.any (fun e => e.2.success) = false →
           (publishOnePost attempt now db post).1.posts = db.posts) ∧
         (out.results.any (fun e => e.2.success) = true →
           (publishOnePost attempt now db post).1.posts =
             db.posts.map (fun p =>
               if p.id = post.id then { p with published := 1, updated_at := now } else p)))) := by
  constructor
  · intro payload platforms out db2 h
    obtain ⟨hres, hsucc, hposts⟩ := socialPost_ok_inv attempt db now payload platforms out db2 h
    refine ⟨?_, hposts⟩
    rw [hsucc]
    rw [List.isEmpty_iff]
    exact errorsOf_eq_nil_iff attempt platforms
  · intro post s out db2 hs htrim h
    obtain ⟨hres, hsucc, hposts⟩ := socialPost_ok_inv attempt db now _ _ out db2 h
    by_cases hany : out.results.any (fun e => e.2.success) = true
    · refine ⟨?_, ?_, ?_⟩
      · simp [publishOnePost, hs, htrim, h, hany]
      · intro hcontra
        rw [hcontra] at hany
        exact absurd hany (by simp)
      · intro _
        simp [publishOnePost, hs, htrim, h, hany, logAction, markAsPublished, IdsArg.toList,
          markOne, hposts]
    · have hany2 : out.results.any (fun e => e.2.success) = false := by
        simpa using hany
      refine ⟨?_, ?_, ?_⟩
      · simp [publishOnePost, hs, htrim, h, hany2]
      · intro _
        simp [publishOnePost, hs, htrim, h, hany2, hposts]
      · intro hcontra
        rw [hcontra] at hany2
        simp at hany2

/-- Fixture post targeting `a,b` used by the C2 witness. -/
def wPost : Post :=
  { id := 1, title := none, content := "hello", platforms := some "a,b",
    publish_date := none, published := 0, created_at := 0, updated_at := 0 }

/-- Fixture database holding only `wPost`. -/
def wDb : DB := { posts := [wPost], logs := [], nextId := 2 }

/-- The outcome `SocialAPI.post` computes for `wPost` under `wAtt`. -/
def wOutcome : PostOutcome :=
  { results := [("a", { success := true, postId := some "ref1" }),
                ("b", { success := false, error := some "Unsupported platform: b" })],
    success := false,
    errors := [("b", "Unsupported platform: b")] }

/-- The database state after the orchestrator's own log writes for
`wPost`. -/
def wDb2 : DB :=
  { posts := [wPost],
    logs := [{ action := "post_created",
               details := .postCreated "a" (some "ref1") (some "hello"), timestamp := 0 },
             { action := "post_error",
               details := .postError "b" "Unsupported platform: b" (some "hello"), timestamp := 0 }],
    nextId := 2 }

/-- Witness for the amended C2 theorem at concrete inputs. -/
theorem overall_success_flag_and_caller_marking_witness :
    ((wOutcome.success = true) ↔
        ∀ p ∈ splitPlatforms "a,b", (wAtt (jsToLower p)).isOk = true) ∧
      (publishOnePost wAtt 0 wDb wPost).2 = wOutcome.results.any (fun e => e.2.success) :=
  ⟨((overall_success_flag_and_caller_marking wAtt wDb 0).1
      { text := some wPost.content, title := wPost.title } (splitPlatforms "a,b")
      wOutcome wDb2 (by rfl)).1,
   ((overall_success_flag_and_caller_marking wAtt wDb 0).2 wPost "a,b" wOutcome wDb2 rfl
      (by decide) (by rfl)).1⟩

/-- Fixture: an unpublished post whose `platforms` column is the empty
string. -/
def emptyPlatPost : Post :=
  { id := 1, title := none, content := "c", platforms := some "", publish_date := none,
    published := 0, created_at := 0, updated_at := 0 }

/-- Fixture database holding only `emptyPlatPost`. -/
def dbEmptyPlat : DB := { posts := [emptyPlatPost], logs := [], nextId := 2 }

/-- Claim C7 counterexample: publishing a post with an empty platform set is
not a vacuous success — the post is skipped: the database is returned
unchanged, the post stays unpublished (`published = 0`) and no log entry is
appended, contradicting the claimed `published = true` plus audit entry. -/
theorem empty_platform_post_counterexample :
    publishOnePost wAtt 0 dbEmptyPlat emptyPlatPost = (dbEmptyPlat, false) ∧
      (getPostById dbEmptyPlat 1).map (fun p => p.published) = some 0 ∧
      dbEmptyPlat.logs = [] := by
  decide

/-- Claim C7 (amended): a post whose `platforms` column is null or blank is
skipped by the publish loop — no adapter is invoked, the store and the log
are untouched and the post stays unpublished; and the low-level
`SocialAPI.post` called with an empty platform list throws
`No platforms specified for posting` instead of returning an empty-map
success. -/
theorem empty_platform_post_skipped (attempt : String → Except String String)
    (now : Nat) (db : DB) (post : Post) (payload : PostPayload) :
    (post.platforms = none → publishOnePost attempt now db post = (db, false)) ∧
    (∀ s, post.platforms = some s → jsTrim s = "" →
      publishOnePost attempt now db post = (db, false)) ∧
    socialPost attempt db now payload [] = .error "No platforms specified for posting" := by
  refine ⟨?_, ?_, rfl⟩
  · intro h
    simp [publishOnePost, h]
  · intro s hs htrim
    simp [publishOnePost, hs, htrim]

/-- Witness for the amended C7 theorem at a concrete input. -/
theorem empty_platform_post_skipped_witness :
    publishOnePost wAtt 3 dbEmptyPlat emptyPlatPost = (dbEmptyPlat, false) :=
  (empty_platform_post_skipped wAtt 3 dbEmptyPlat emptyPlatPost {}).2.1 "" rfl (by decide)

/-- Claim C3 counterexample: for a schedule carrying a time-of-day
component (23:00 of day 0, instant 1380) and `now` 08:00 of the same day
(instant 480), the CLI eligibility evaluator answers eligible although the
precise instant has not passed — it truncates date-times to day level,
contradicting the claimed exact-instant comparison. -/
theorem datetime_eligibility_counterexample :
    isEligibleForPublishing (some (.dateTime 1380)) 480 = true ∧ ¬ (1380 ≤ 480) := by
  decide

/-- Claim C3 (amended): the claimed asymmetry holds only in the server
publish endpoint, not in the CLI evaluator.  `isEligibleForPublishing`
truncates both the schedule and `now` to day starts, so a date-only
schedule is eligible from the start of its calendar day (as claimed) but a
date-time schedule is also eligible from the start of its calendar day
rather than from its exact instant; the check inside `/api/publish/:id`
implements the claimed behaviour for both forms. -/
theorem eligibility_truncation_behavior (d t now : Nat) :
    isEligibleForPublishing none now = true ∧
    (isEligibleForPublishing (some (.dateOnly d)) now = true ↔ d * 1440 ≤ now) ∧
    (isEligibleForPublishing (some (.dateTime t)) now = true ↔ startOfDay t ≤ startOfDay now) ∧
    (serverEligibleCheck (some (.dateTime t)) now = true ↔ t ≤ now) ∧
    (serverEligibleCheck (some (.dateOnly d)) now = true ↔ d * 1440 ≤ now) := by
  refine ⟨rfl, ?_, ?_, ?_, ?_⟩
  all_goals simp [isEligibleForPublishing, serverEligibleCheck, startOfDay, SchedValue.instant]
  all_goals omega

/-- Claim C6 counterexample: a tick that fires while a cycle is in progress
is not dropped — starting from idle, two ticks with no completion in
between leave two cycles running concurrently, contradicting "at most one
cycle runs at any time". -/
theorem scheduler_tick_not_dropped_counterexample :
    onTick (onTick { running := 0 }) = { running := 2 } ∧
      ¬ (onTick (onTick { running := 0 })).running ≤ 1 := by
  decide

/-- Claim C6 (amended): the continuous scheduler has no overlap prevention:
the cron callback starts a cycle on every tick unconditionally, so a tick
arriving during a running cycle yields two or more concurrent cycles, and
`n` ticks without completions yield `n` concurrent cycles. -/
theorem scheduler_tick_always_starts_cycle (s : SchedulerState) (n : Nat) :
    onTick s = { running := s.running + 1 } ∧
    (1 ≤ s.running → 2 ≤ (onTick s).running) ∧
    (ticksFromIdle n).running = n := by
  refine ⟨rfl, ?_, ?_⟩
  · intro h
    simp [onTick]
    omega
  · induction n with
    | zero => rfl
    | succ m ih => simp [ticksFromIdle, onTick, ih]

/-- Witness for the amended C6 theorem at a concrete input. -/
theorem scheduler_tick_always_starts_cycle_witness :
    2 ≤ (onTick { running := 1 }).running ∧ (ticksFromIdle 3).running = 3 :=
  ⟨(scheduler_tick_always_starts_cycle { running := 1 } 3).2.1 (by decide),
   (scheduler_tick_always_starts_cycle { running := 1 } 3).2.2⟩

end SocialLight
